import Mathlib

/-!
# Verification of the MSP serial-protocol client (msp-tool)

A shallow embedding of the frame codec (`msp.go`), the typed payload
reader (`MSPFrame.Read`), the flight-controller session state
(`fc/fc.go`) and the stick simulator (`rx` package) of the msp-tool
repository, together with proofs settling the specification claims.

Bytes are modelled as natural numbers; every byte produced by the Go
code is below 256 and the embedding applies `% 256` exactly where the
Go code truncates to a byte.  Byte streams are lists consumed from the
front; a serial-port read of `k` bytes takes the first `k` elements and
fails with an I/O error when fewer remain.
-/

namespace MspTool

/-! ## Frame codec (`src/msp.go`) -/

/-- MSP command codes used by the session (`src/msp.go` constants). -/
def mspAPIVersion : Nat := 1
def mspFCVariant : Nat := 2
def mspFCVersion : Nat := 3
def mspBoardInfo : Nat := 4
def mspBuildInfo : Nat := 5
def mspFeature : Nat := 36
def mspSetFeature : Nat := 37
def mspCFSerialConfig : Nat := 54
def mspSetCFSerialConfig : Nat := 55
def mspRXMap : Nat := 64
def mspEepromWrite : Nat := 250

/-- `mspFCFeatureDebugTrace = 1 << 31`. -/
def mspFCFeatureDebugTrace : Nat := 2 ^ 31

/-- `serialFunctionMSP = 1 << 0`. -/
def serialFunctionMSP : Nat := 1

/-- `serialFunctionDebugTrace = 1 << 15`. -/
def serialFunctionDebugTrace : Nat := 2 ^ 15

/-- A decoded MSP frame (`MSPFrame` in `src/msp.go`): command code,
payload bytes, and the cursor used by sequential typed reads. -/
structure MSPFrame where
  code : Nat
  payload : List Nat
  payloadPos : Nat
deriving Repr, DecidableEq

/-- `MSPFrame.BytesRemaining`: `len(f.Payload) - f.payloadPos`. -/
def MSPFrame.bytesRemaining (f : MSPFrame) : Nat :=
  f.payload.length - f.payloadPos

/-- Errors surfaced by the decoder.  `checksum` is `mspChecksumErr`
(carrying code, received payload, received checksum and recomputed
checksum), `oob` is `mspOOBErr`, `invalidDirection` and `unknownChar`
are the two `fmt.Errorf` cases, and `ioErr` stands for a transport read
that could not deliver the requested bytes. -/
inductive MSPErr where
  | oob (b : Nat)
  | invalidDirection (b : Nat)
  | unknownChar (b : Nat)
  | checksum (code : Nat) (payload : List Nat) (received expected : Nat)
  | ioErr
deriving Repr, DecidableEq

/-- `mspV1Encode` (`src/msp.go:46`): `$M<`, length byte, command byte,
payload (only when the length byte is non-zero), then the XOR checksum
over every byte after the three markers.  `byte(len(data))` truncates
the length to 8 bits. -/
def mspV1Encode (cmd : Nat) (data : List Nat) : List Nat :=
  let payloadLength := if 0 < data.length then data.length % 256 else 0
  let written := if 0 < payloadLength then data else []
  let tail := payloadLength :: cmd :: written
  [36, 77, 60] ++ tail ++ [tail.foldl Nat.xor 0]

/-- One round of `crc8DvbS2`'s inner loop: shift left (truncated to a
byte) and conditionally XOR the polynomial `0xD5`. -/
def crc8Step (c : Nat) : Nat :=
  if c &&& 0x80 ≠ 0 then ((c <<< 1) % 256) ^^^ 0xD5 else (c <<< 1) % 256

/-- `n` applications of the CRC round. -/
def crc8Rounds : Nat → Nat → Nat
  | 0, c => c
  | n + 1, c => crc8Rounds n (crc8Step c)

/-- `crc8DvbS2` (`src/msp.go:93`): XOR in the new byte, then eight
shift-and-conditionally-XOR-`0xD5` rounds. -/
def crc8DvbS2 (crc a : Nat) : Nat :=
  crc8Rounds 8 ((crc ^^^ a) % 256)

/-- CRC-8/DVB-S2 over a byte sequence, accumulated left to right with
initial value 0, as both `mspV2Encode` and the spec describe. -/
def crc8OverBytes (l : List Nat) : Nat :=
  l.foldl crc8DvbS2 0

/-- `readMSPV1Frame` (`src/msp.go:261`) on a byte stream that starts
just after the `$M` markers: read direction, length and command bytes,
the exact-length payload, then one checksum byte; compare the received
checksum with the XOR of every byte from the length byte to the end of
the payload.  Returns the decoded frame and the unconsumed stream. -/
def readMSPV1Frame (s : List Nat) : Except MSPErr (MSPFrame × List Nat) :=
  match s with
  | dir :: len :: cmd :: rest =>
    if dir ≠ 60 ∧ dir ≠ 62 then .error (.invalidDirection dir)
    else
      let payloadLength := len
      if 0 < payloadLength then
        if rest.length < payloadLength then .error .ioErr
        else
          let payload := rest.take payloadLength
          match rest.drop payloadLength with
          | [] => .error .ioErr
          | crc :: rest2 =>
            let ccrc := (len :: cmd :: payload).foldl Nat.xor 0
            if crc ≠ ccrc then
              .error (.checksum cmd payload crc ccrc)
            else
              .ok (⟨cmd, payload, 0⟩, rest2)
      else
        match rest with
        | [] => .error .ioErr
        | crc :: rest2 =>
          let ccrc := (len :: cmd :: ([] : List Nat)).foldl Nat.xor 0
          if crc ≠ ccrc then
            .error (.checksum cmd [] crc ccrc)
          else
            .ok (⟨cmd, [], 0⟩, rest2)
  | _ => .error .ioErr

/-- `readMSPV2Frame` (`src/msp.go:304`) on a byte stream that starts
just after the `$X` markers: read direction, flags, 16-bit command,
16-bit payload length (both little-endian), the payload, and one
checksum byte.  The source reads the checksum byte but never compares
it (`// crc := buf[0]`), so the frame is returned unconditionally. -/
def readMSPV2Frame (s : List Nat) : Except MSPErr (MSPFrame × List Nat) :=
  match s with
  | dir :: _flags :: c1 :: c2 :: l1 :: l2 :: rest =>
    if dir ≠ 60 ∧ dir ≠ 62 then .error (.invalidDirection dir)
    else
      let code := c1 + 256 * c2
      let payloadLength := l1 + 256 * l2
      if rest.length < payloadLength then .error .ioErr
      else
        let payload := rest.take payloadLength
        match rest.drop payloadLength with
        | [] => .error .ioErr
        | _crc :: rest2 => .ok (⟨code, payload, 0⟩, rest2)
  | _ => .error .ioErr

/-- `MSP.ReadFrame` (`src/msp.go:335`): expect a `$` marker (any other
first byte is surfaced as an out-of-band error), then dispatch on the
version marker `M`/`X`. -/
def readFrame (s : List Nat) : Except MSPErr (MSPFrame × List Nat) :=
  match s with
  | [] => .error .ioErr
  | b :: rest =>
    if b ≠ 36 then .error (.oob b)
    else
      match rest with
      | [] => .error .ioErr
      | c :: rest2 =>
        if c = 77 then readMSPV1Frame rest2
        else if c = 88 then readMSPV2Frame rest2
        else .error (.unknownChar c)

/-! ## Typed payload reader (`MSPFrame.Read`, `src/msp.go:123`) -/

/-- The shapes `MSPFrame.Read` accepts: 8/16/32-bit unsigned integers
and structs read field by field in declared order.  The Go slice branch
reads each element in order with the element type, which is the same as
a struct whose fields repeat the element type (`sliceShape` below). -/
inductive MSPType where
  | u8
  | u16
  | u32
  | struct (fields : List MSPType)

/-- A fixed-length slice of `n` elements of shape `t`: read as `n`
consecutive fields of shape `t` (`src/msp.go:155`). -/
def sliceShape (t : MSPType) (n : Nat) : MSPType :=
  .struct (List.replicate n t)

/-- Values produced by the typed reader. -/
inductive MSPValue where
  | vU8 (n : Nat)
  | vU16 (n : Nat)
  | vU32 (n : Nat)
  | vStruct (fields : List MSPValue)

mutual

/-- Number of payload bytes a shape consumes. -/
def typeSize : MSPType → Nat
  | .u8 => 1
  | .u16 => 2
  | .u32 => 4
  | .struct fs => typeSizeList fs

def typeSizeList : List MSPType → Nat
  | [] => 0
  | f :: fs => typeSize f + typeSizeList fs

end

/-- The only error `MSPFrame.Read` returns for supported shapes is
`io.EOF` (payload exhausted); `other` stands for every distinct error
value, none of which the reader produces. -/
inductive ReadError where
  | eof
  | other
deriving Repr, DecidableEq

mutual

/-- `MSPFrame.Read` (`src/msp.go:123`): check the remaining byte count
against the width of the requested shape, returning `io.EOF` when the
payload is exhausted; otherwise decode little-endian and advance the
cursor.  Structs recurse field by field, stopping at the first error
(with the cursor already advanced past the successful prefix). -/
def frameRead : MSPFrame → MSPType → Except ReadError MSPValue × MSPFrame
  | f, .u8 =>
    if f.bytesRemaining < 1 then (.error .eof, f)
    else (.ok (.vU8 (f.payload.getD f.payloadPos 0)),
      { f with payloadPos := f.payloadPos + 1 })
  | f, .u16 =>
    if f.bytesRemaining < 2 then (.error .eof, f)
    else (.ok (.vU16 (f.payload.getD f.payloadPos 0 +
        256 * f.payload.getD (f.payloadPos + 1) 0)),
      { f with payloadPos := f.payloadPos + 2 })
  | f, .u32 =>
    if f.bytesRemaining < 4 then (.error .eof, f)
    else (.ok (.vU32 (f.payload.getD f.payloadPos 0 +
        256 * f.payload.getD (f.payloadPos + 1) 0 +
        65536 * f.payload.getD (f.payloadPos + 2) 0 +
        16777216 * f.payload.getD (f.payloadPos + 3) 0)),
      { f with payloadPos := f.payloadPos + 4 })
  | f, .struct fs =>
    match frameReadList f fs with
    | (.error e, f') => (.error e, f')
    | (.ok vs, f') => (.ok (.vStruct vs), f')

def frameReadList : MSPFrame → List MSPType → Except ReadError (List MSPValue) × MSPFrame
  | f, [] => (.ok [], f)
  | f, t :: ts =>
    match frameRead f t with
    | (.error e, f') => (.error e, f')
    | (.ok v, f') =>
      match frameReadList f' ts with
      | (.error e, f'') => (.error e, f'')
      | (.ok vs, f'') => (.ok (v :: vs), f'')

end

/-- `MSPSerialConfig` (`src/msp_types.go`): identifier (u8), function
mask (u16), four baud-rate indices (u8 each) — 7 bytes. -/
def serialConfigShape : MSPType :=
  .struct [.u8, .u16, .u8, .u8, .u8, .u8]

mutual

/-- `MSPFrame.Read` succeeds and advances the cursor by exactly the
shape's width when enough payload remains, and returns `io.EOF` when
the remaining payload is shorter than the shape requires. -/
theorem frameRead_spec : ∀ (t : MSPType) (f : MSPFrame),
    (typeSize t ≤ f.bytesRemaining →
      ∃ v, frameRead f t =
        (.ok v, { f with payloadPos := f.payloadPos + typeSize t })) ∧
    (f.bytesRemaining < typeSize t → (frameRead f t).1 = .error .eof)
  | .u8, f => by
    simp only [typeSize]
    constructor
    · intro h
      refine ⟨.vU8 (f.payload.getD f.payloadPos 0), ?_⟩
      simp only [frameRead]
      rw [if_neg (by omega)]
    · intro h
      simp only [frameRead]
      rw [if_pos (by omega)]
  | .u16, f => by
    simp only [typeSize]
    constructor
    · intro h
      refine ⟨.vU16 (f.payload.getD f.payloadPos 0 +
        256 * f.payload.getD (f.payloadPos + 1) 0), ?_⟩
      simp only [frameRead]
      rw [if_neg (by omega)]
    · intro h
      simp only [frameRead]
      rw [if_pos (by omega)]
  | .u32, f => by
    simp only [typeSize]
    constructor
    · intro h
      refine ⟨.vU32 (f.payload.getD f.payloadPos 0 +
        256 * f.payload.getD (f.payloadPos + 1) 0 +
        65536 * f.payload.getD (f.payloadPos + 2) 0 +
        16777216 * f.payload.getD (f.payloadPos + 3) 0), ?_⟩
      simp only [frameRead]
      rw [if_neg (by omega)]
    · intro h
      simp only [frameRead]
      rw [if_pos (by omega)]
  | .struct fs, f => by
    have hl := frameReadList_spec fs f
    constructor
    · intro h
      obtain ⟨vs, hvs⟩ := hl.1 (by simpa [typeSize] using h)
      exact ⟨.vStruct vs, by simp [frameRead, hvs, typeSize]⟩
    · intro h
      have := hl.2 (by simpa [typeSize] using h)
      rcases heq : frameReadList f fs with ⟨r, f'⟩
      rw [heq] at this
      simp at this
      simp [frameRead, heq, this]

theorem frameReadList_spec : ∀ (ts : List MSPType) (f : MSPFrame),
    (typeSizeList ts ≤ f.bytesRemaining →
      ∃ vs, frameReadList f ts =
        (.ok vs, { f with payloadPos := f.payloadPos + typeSizeList ts })) ∧
    (f.bytesRemaining < typeSizeList ts → (frameReadList f ts).1 = .error .eof)
  | [], f => by
    constructor
    · intro _
      exact ⟨[], by simp [frameReadList, typeSizeList]⟩
    · intro h
      simp [typeSizeList] at h
  | t :: ts, f => by
    have h1 := frameRead_spec t f
    by_cases hle : typeSize t ≤ f.bytesRemaining
    · obtain ⟨v, hv⟩ := h1.1 hle
      have hrem : MSPFrame.bytesRemaining
          { f with payloadPos := f.payloadPos + typeSize t } =
          f.bytesRemaining - typeSize t := by
        simp [MSPFrame.bytesRemaining, Nat.sub_sub]
      have h2 := frameReadList_spec ts
        { f with payloadPos := f.payloadPos + typeSize t }
      constructor
      · intro h
        have hts : typeSizeList ts ≤ f.bytesRemaining - typeSize t := by
          simp [typeSizeList] at h
          omega
        obtain ⟨vs, hvs⟩ := h2.1 (by rw [hrem]; exact hts)
        refine ⟨v :: vs, ?_⟩
        simp [frameReadList, hv, hvs, typeSizeList, Nat.add_assoc]
      · intro h
        have hts : f.bytesRemaining - typeSize t < typeSizeList ts := by
          simp [typeSizeList] at h
          omega
        have := h2.2 (by rw [hrem]; exact hts)
        rcases heq : frameReadList { f with payloadPos := f.payloadPos + typeSize t } ts
          with ⟨r, f''⟩
        rw [heq] at this
        simp at this
        simp [frameReadList, hv, heq, this]
    · have hlt : f.bytesRemaining < typeSize t := Nat.not_le.mp hle
      have := h1.2 hlt
      rcases heq : frameRead f t with ⟨r, f'⟩
      rw [heq] at this
      simp at this
      constructor
      · intro h
        simp [typeSizeList] at h
        omega
      · intro _
        simp [frameReadList, heq, this]

end

/-- Reading one serial-config record consumes 7 bytes; helper fact
used by the termination argument of `readSerialConfigs`. -/
theorem frameRead_serialConfig_ok (f : MSPFrame) (v : MSPValue) (f' : MSPFrame)
    (h : frameRead f serialConfigShape = (.ok v, f')) :
    7 ≤ f.bytesRemaining ∧ f'.bytesRemaining = f.bytesRemaining - 7 ∧
      f'.bytesRemaining < f.bytesRemaining := by
  have hs := frameRead_spec serialConfigShape f
  have hsize : typeSize serialConfigShape = 7 := by rfl
  by_cases hle : 7 ≤ f.bytesRemaining
  · obtain ⟨w, hw⟩ := hs.1 (by rw [hsize]; exact hle)
    rw [h] at hw
    have hf' : f' = { f with payloadPos := f.payloadPos + 7 } := by
      have := congrArg Prod.snd hw
      simpa [hsize] using this
    subst hf'
    simp only [MSPFrame.bytesRemaining] at hle ⊢
    refine ⟨hle, ?_, ?_⟩ <;> omega
  · have := hs.2 (by rw [hsize]; exact Nat.not_le.mp hle)
    rw [h] at this
    simp at this

/-- The serial-config branch of `FC.handleFrame` (`src/fc/fc.go:190`):
read `MSPSerialConfig` records in a loop; `io.EOF` ends the list
(`break`), any other read error panics (`none`). -/
def readSerialConfigs (f : MSPFrame) : Option (List MSPValue) :=
  match h : frameRead f serialConfigShape with
  | (.error .eof, _) => some []
  | (.error .other, _) => none
  | (.ok v, f') =>
    (readSerialConfigs f').map (fun l => v :: l)
termination_by f.bytesRemaining
decreasing_by
  exact (frameRead_serialConfig_ok f v f' h).2.2

/-! ## Stick simulator (`rx` package, `src/unnamed/part_004`) -/

/-- `RxLow`, `RxMid`, `RxHigh`: the extreme and centered channel
values. -/
def RxLow : Nat := 1000
def RxMid : Nat := 1500
def RxHigh : Nat := 2000

/-- The RX keys: WASD for the left stick, arrows for the right stick,
digits 1-0 for toggle channels 5-14. -/
inductive RXKey where
  | w | a | s | d
  | up | left | down | right
  | k1 | k2 | k3 | k4 | k5 | k6 | k7 | k8 | k9 | k0
deriving Repr, DecidableEq

/-- `RxSticks`: the four proportional axes, the 14 auxiliary channels
(channels 5-18), and the per-key last-press timestamp.  `time.Time{}`
(the cleared timestamp) is `none`; `time.Now()` at instant `now` is
`some now`. -/
structure RxSticks where
  roll : Nat
  pitch : Nat
  yaw : Nat
  throttle : Nat
  channels : List Nat
  lastPress : RXKey → Option Nat

/-- Point update of the last-press table. -/
def setPress (lp : RXKey → Option Nat) (k : RXKey) (v : Option Nat) :
    RXKey → Option Nat :=
  fun q => if q = k then v else lp q

/-- `RxSticks.switchChannel`: flip auxiliary channel `ch` (5-18)
between `RxLow` and `RxHigh`; out-of-range indices are ignored. -/
def RxSticks.switchChannel (r : RxSticks) (ch : Nat) : RxSticks :=
  let idx : Int := (ch : Int) - 5
  if 0 ≤ idx ∧ idx < r.channels.length then
    if r.channels.getD idx.toNat 0 = RxLow then
      { r with channels := r.channels.set idx.toNat RxHigh }
    else
      { r with channels := r.channels.set idx.toNat RxLow }
  else r

/-- `RxSticks.Keypress` at instant `now`: direction keys snap their
axis to an extreme and clear a pending timestamp (the opposite key's,
except in the `RXKeyRight` arm, which clears `RXKeyRight`'s own entry —
exactly as the source does); digit keys toggle a channel; finally the
pressed key's timestamp is set to `now`. -/
def RxSticks.Keypress (r : RxSticks) (key : RXKey) (now : Nat) : RxSticks :=
  let r1 :=
    match key with
    | .w => { r with throttle := RxHigh, lastPress := setPress r.lastPress .s none }
    | .a => { r with yaw := RxLow, lastPress := setPress r.lastPress .d none }
    | .s => { r with throttle := RxLow, lastPress := setPress r.lastPress .w none }
    | .d => { r with yaw := RxHigh, lastPress := setPress r.lastPress .a none }
    | .up => { r with pitch := RxHigh, lastPress := setPress r.lastPress .down none }
    | .left => { r with roll := RxLow, lastPress := setPress r.lastPress .right none }
    | .down => { r with pitch := RxLow, lastPress := setPress r.lastPress .up none }
    | .right => { r with roll := RxHigh, lastPress := setPress r.lastPress .right none }
    | .k1 => r.switchChannel 5
    | .k2 => r.switchChannel 6
    | .k3 => r.switchChannel 7
    | .k4 => r.switchChannel 8
    | .k5 => r.switchChannel 9
    | .k6 => r.switchChannel 10
    | .k7 => r.switchChannel 11
    | .k8 => r.switchChannel 12
    | .k9 => r.switchChannel 13
    | .k0 => r.switchChannel 14
  { r1 with lastPress := setPress r1.lastPress key (some now) }

/-- The toggle channel (5-14) driven by a digit key, if any. -/
def toggleChannel : RXKey → Option Nat
  | .k1 => some 5
  | .k2 => some 6
  | .k3 => some 7
  | .k4 => some 8
  | .k5 => some 9
  | .k6 => some 10
  | .k7 => some 11
  | .k8 => some 12
  | .k9 => some 13
  | .k0 => some 14
  | _ => none

/-! ## Session state (`src/fc/fc.go`) -/

/-- The identification and session fields of `FC` that the claims
touch.  Strings are byte lists; `channelMap = []` models the cleared
(`nil`) map. -/
structure FCState where
  variant : List Nat
  versionMajor : Nat
  versionMinor : Nat
  versionPatch : Nat
  boardID : List Nat
  targetName : List Nat
  features : Nat
  channelMap : List Nat
  enableDebugTrace : Bool
  sticks : RxSticks

/-- The stick state installed by `FC.reset` (`src/fc/fc.go:582`): the
struct literal sets the four axes to `RxMid` and leaves `Channels` and
`lastPress` at their zero values. -/
def fcResetSticks : RxSticks :=
  { roll := RxMid
    pitch := RxMid
    yaw := RxMid
    throttle := RxMid
    channels := List.replicate 14 0
    lastPress := fun _ => none }

/-- `FC.reset` (`src/fc/fc.go:569`): clear every identification field
and reinstall the reset stick state. -/
def FCState.reset (f : FCState) : FCState :=
  { f with
    variant := []
    versionMajor := 0
    versionMinor := 0
    versionPatch := 0
    boardID := []
    targetName := []
    features := 0
    channelMap := []
    sticks := fcResetSticks }

/-- `FC.updateInfo` (`src/fc/fc.go:118`): the identification handshake,
a fixed sequence of eight commands. -/
def updateInfoCmds : List Nat :=
  [mspAPIVersion, mspFCVariant, mspFCVersion, mspBoardInfo,
   mspBuildInfo, mspFeature, mspCFSerialConfig, mspRXMap]

/-- The success path of `FC.reconnect` (`src/fc/fc.go:93`): once a port
opens, `reset` runs first and `updateInfo` sends the handshake from the
freshly cleared state.  Result: the state in which the handshake is
issued, and the commands sent. -/
def reconnectSuccess (f : FCState) : FCState × List Nat :=
  (f.reset, updateInfoCmds)

/-- The `MspBoardInfo` arm of `FC.handleFrame` (`src/fc/fc.go:156`):
`boardID` is the first 4 payload bytes (a shorter payload panics on the
slice, modelled as `none`); with at least 9 bytes, byte 8 is the target
name length and the name is copied only when it fits strictly inside
the payload (`len(fr.Payload) > 8+targetNameLength`). -/
def handleBoardInfo (f : FCState) (payload : List Nat) : Option FCState :=
  if payload.length < 4 then none
  else
    let f1 := { f with boardID := payload.take 4 }
    if 9 ≤ payload.length then
      let targetNameLength := payload.getD 8 0
      if 8 + targetNameLength < payload.length then
        some { f1 with targetName := (payload.drop 9).take targetNameLength }
      else some f1
    else some f1

/-- `FC.versionGte` (`src/fc/fc.go:273`). -/
def FCState.versionGte (f : FCState) (major minor patch : Nat) : Bool :=
  decide (f.versionMajor > major) ||
  (f.versionMajor == major && decide (f.versionMinor > minor)) ||
  (f.versionMajor == major && f.versionMinor == minor &&
    decide (f.versionPatch ≥ patch))

/-- The bytes of the string `"INAV"`. -/
def inavVariant : List Nat := [73, 78, 65, 86]

/-- `FC.shouldEnableDebugTrace` (`src/fc/fc.go:278`). -/
def FCState.shouldEnableDebugTrace (f : FCState) : Bool :=
  f.enableDebugTrace && f.variant == inavVariant && f.versionGte 1 9 0

/-- `fr.Read(&f.Features)` in the `MspFeature` arm: a 32-bit
little-endian read from the start of the payload; on `io.EOF` the
previous value is kept (the error is discarded). -/
def readFeaturesU32 (payload : List Nat) (old : Nat) : Nat :=
  match frameRead ⟨mspFeature, payload, 0⟩ .u32 with
  | (.ok (.vU32 n), _) => n
  | _ => old

/-- The `MspFeature` arm of `FC.handleFrame` (`src/fc/fc.go:176`):
store the decoded feature word; when the debug-trace bit is clear and
`shouldEnableDebugTrace` holds, set the bit and send `MspSetFeature`
followed by `MspEepromWrite`.  Result: the new state and the commands
sent. -/
def handleFeature (f : FCState) (payload : List Nat) : FCState × List Nat :=
  let f1 := { f with features := readFeaturesU32 payload f.features }
  if f1.features &&& mspFCFeatureDebugTrace == 0 && f1.shouldEnableDebugTrace then
    ({ f1 with features := f1.features ||| mspFCFeatureDebugTrace },
      [mspSetFeature, mspEepromWrite])
  else (f1, [])

/-- Whether the `MspFeature` arm attempts the debug-trace forcing
(writes the feature word back and requests a persistent-settings
write). -/
def debugTraceForcingAttempted (f : FCState) (payload : List Nat) : Bool :=
  (handleFeature f payload).2 ≠ []

/-! ## C1: v1 encode/decode round trip -/

/-- C1: for every command byte and every payload valid for protocol v1
(at most 255 bytes, each below 256), decoding the bytes produced by
`mspV1Encode` yields a frame whose code is the original command and
whose payload is the original payload, with the whole stream
consumed. -/
theorem v1_roundtrip (cmd : Nat) (data : List Nat)
    (hcmd : cmd < 256) (hlen : data.length ≤ 255)
    (hdata : ∀ b ∈ data, b < 256) :
    readFrame (mspV1Encode cmd data) = .ok (⟨cmd, data, 0⟩, []) := by
  by_cases h0 : 0 < data.length
  · have hmod : data.length % 256 = data.length := Nat.mod_eq_of_lt (by omega)
    have henc : mspV1Encode cmd data =
        36 :: 77 :: 60 :: data.length :: cmd ::
          (data ++ [(data.length :: cmd :: data).foldl Nat.xor 0]) := by
      simp [mspV1Encode, if_pos h0, hmod]
    rw [henc]
    simp only [readFrame, readMSPV1Frame]
    have hd1 : ¬ ((36 : Nat) ≠ 36) := by simp
    have hd2 : ¬ ((60 : Nat) ≠ 60 ∧ (60 : Nat) ≠ 62) := by simp
    have hd3 : ¬ ((data ++ [(data.length :: cmd :: data).foldl Nat.xor 0]).length
        < data.length) := by simp
    rw [if_neg hd2, if_pos h0, if_neg hd3, List.take_left, List.drop_left]
    simp
  · have hnil : data = [] := List.eq_nil_of_length_eq_zero (by omega)
    subst hnil
    simp [mspV1Encode, readFrame, readMSPV1Frame]

/-- Witness for C1 at a concrete command and payload. -/
theorem v1_roundtrip_witness :
    readFrame (mspV1Encode 105 [10, 20, 30]) = .ok (⟨105, [10, 20, 30], 0⟩, []) :=
  v1_roundtrip 105 [10, 20, 30] (by decide) (by decide) (by decide)

/-! ## XOR folding facts -/

/-- `Nat.xor` applications are the `^^^` operator. -/
theorem nat_xor_eq (a b : Nat) : Nat.xor a b = a ^^^ b := rfl

/-- Folding XOR over a list commutes with XOR-ing the accumulator. -/
theorem foldl_xor_shift (l : List Nat) : ∀ a m : Nat,
    l.foldl Nat.xor (a ^^^ m) = (l.foldl Nat.xor a) ^^^ m := by
  induction l with
  | nil => intro a m; simp
  | cons b t ih =>
    intro a m
    simp only [List.foldl_cons, nat_xor_eq]
    rw [show (a ^^^ m) ^^^ b = (a ^^^ b) ^^^ m by
      rw [Nat.xor_assoc, Nat.xor_comm m b, ← Nat.xor_assoc]]
    exact ih (a ^^^ b) m

/-- XOR-ing one list element into the fold XORs the fold's result. -/
theorem foldl_xor_flip (l1 : List Nat) (x m : Nat) (l2 : List Nat) : ∀ a : Nat,
    (l1 ++ (x ^^^ m) :: l2).foldl Nat.xor a =
      ((l1 ++ x :: l2).foldl Nat.xor a) ^^^ m := by
  induction l1 with
  | nil =>
    intro a
    simp only [List.nil_append, List.foldl_cons, nat_xor_eq]
    rw [show a ^^^ (x ^^^ m) = (a ^^^ x) ^^^ m from (Nat.xor_assoc a x m).symm]
    exact foldl_xor_shift l2 (a ^^^ x) m
  | cons b t ih =>
    intro a
    simp only [List.cons_append, List.foldl_cons, nat_xor_eq]
    exact ih (a ^^^ b)

/-- XOR-ing a non-zero value changes a byte. -/
theorem xor_ne_self (c m : Nat) (hm : m ≠ 0) : c ^^^ m ≠ c := by
  intro h
  apply hm
  have h2 := congrArg (fun z => c ^^^ z) h
  simpa [← Nat.xor_assoc, Nat.xor_self, Nat.zero_xor] using h2

/-- `readMSPV1Frame` on a stream holding a complete v1 frame body:
the result is a checksum error or a decoded frame depending on whether
the received checksum byte matches the recomputed XOR. -/
theorem readMSPV1Frame_shape (cmd : Nat) (body : List Nat) (crcb : Nat)
    (h0 : 0 < body.length) :
    readMSPV1Frame (60 :: body.length :: cmd :: (body ++ [crcb])) =
      if crcb ≠ (body.length :: cmd :: body).foldl Nat.xor 0 then
        .error (.checksum cmd body crcb ((body.length :: cmd :: body).foldl Nat.xor 0))
      else .ok (⟨cmd, body, 0⟩, []) := by
  simp only [readMSPV1Frame]
  rw [if_neg (by simp), if_pos h0,
    if_neg (show ¬ ((body ++ [crcb]).length < body.length) by simp),
    List.take_left, List.drop_left]

/-! ## C2: the v2 reader and checksum mismatches -/

/-- C2 (amended): the v2 reader reads the checksum byte but never
verifies it, so a frame whose checksum byte differs from the
CRC-8/DVB-S2 over the bytes from `flags` through the end of the payload
is still decoded and returned, not rejected. -/
theorem v2_checksum_ignored (flags c1 c2 l1 l2 crcb : Nat) (payload : List Nat)
    (hl : payload.length = l1 + 256 * l2)
    (hbad : crcb ≠ crc8OverBytes (flags :: c1 :: c2 :: l1 :: l2 :: payload)) :
    readFrame (36 :: 88 :: 60 :: flags :: c1 :: c2 :: l1 :: l2 :: (payload ++ [crcb])) =
      .ok (⟨c1 + 256 * c2, payload, 0⟩, []) := by
  simp only [readFrame, readMSPV2Frame]
  rw [if_neg (by simp)]
  rw [if_neg (show ¬ ((payload ++ [crcb]).length < l1 + 256 * l2) by
    simp only [List.length_append, List.length_cons, List.length_nil, ← hl]
    omega)]
  rw [← hl, List.take_left, List.drop_left]
  simp

set_option maxRecDepth 4000 in
/-- Counterexample for C2 as stated: a v2 frame whose checksum byte (0)
does not match the CRC-8/DVB-S2 of its header-plus-payload bytes (69)
is decoded successfully instead of failing with a checksum mismatch. -/
theorem v2_bad_checksum_counterexample :
    readFrame [36, 88, 60, 0, 1, 0, 0, 0, 0] = .ok (⟨1, [], 0⟩, []) ∧
    (0 : Nat) ≠ crc8OverBytes [0, 1, 0, 0, 0] ∧
    crc8OverBytes [0, 1, 0, 0, 0] = 69 :=
  ⟨rfl, by decide, rfl⟩

set_option maxRecDepth 4000 in
/-- Witness for C2's amended theorem at a concrete frame. -/
theorem v2_checksum_ignored_witness :
    readFrame [36, 88, 60, 5, 1, 0, 0, 0, 0] = .ok (⟨1, [], 0⟩, []) :=
  v2_checksum_ignored 5 1 0 0 0 0 [] (by decide) (by decide)

/-! ## C3: single-bit payload corruption -/

/-- `mspV1Encode` on a non-empty payload of valid v1 length: the frame
is header, length byte, command byte, payload, XOR checksum. -/
theorem mspV1Encode_shape (cmd : Nat) (data : List Nat) (h0 : 0 < data.length)
    (hlt : data.length < 256) :
    mspV1Encode cmd data =
      36 :: 77 :: 60 :: data.length :: cmd ::
        (data ++ [(data.length :: cmd :: data).foldl Nat.xor 0]) := by
  have hmod : data.length % 256 = data.length := Nat.mod_eq_of_lt hlt
  simp [mspV1Encode, if_pos h0, hmod]

/-- C3 (amended): flipping one bit of one payload byte of an encoded v1
frame (checksum byte unchanged) makes decoding fail with a checksum
mismatch that carries the original command and the received — that is,
bit-flipped — payload, together with the received and recomputed
checksums. -/
theorem v1_bitflip_checksum_mismatch (cmd : Nat) (d1 : List Nat) (x : Nat)
    (d2 : List Nat) (bit : Nat) (hcmd : cmd < 256) (hx : x < 256)
    (hbit : bit < 8) (hlen : (d1 ++ x :: d2).length ≤ 255) :
    readFrame (36 :: 77 :: 60 :: (d1 ++ x :: d2).length :: cmd ::
        ((d1 ++ (x ^^^ 2 ^ bit) :: d2) ++
          [((d1 ++ x :: d2).length :: cmd :: (d1 ++ x :: d2)).foldl Nat.xor 0])) =
      .error (.checksum cmd (d1 ++ (x ^^^ 2 ^ bit) :: d2)
        (((d1 ++ x :: d2).length :: cmd :: (d1 ++ x :: d2)).foldl Nat.xor 0)
        ((((d1 ++ x :: d2).length :: cmd :: (d1 ++ x :: d2)).foldl Nat.xor 0) ^^^ 2 ^ bit)) ∧
    d1 ++ (x ^^^ 2 ^ bit) :: d2 ≠ d1 ++ x :: d2 ∧
    mspV1Encode cmd (d1 ++ x :: d2) =
      36 :: 77 :: 60 :: (d1 ++ x :: d2).length :: cmd ::
        ((d1 ++ x :: d2) ++
          [((d1 ++ x :: d2).length :: cmd :: (d1 ++ x :: d2)).foldl Nat.xor 0]) := by
  have hm : (2 : Nat) ^ bit ≠ 0 := Nat.pos_iff_ne_zero.mp (Nat.pos_pow_of_pos bit (by omega))
  have hmodlen : (d1 ++ (x ^^^ 2 ^ bit) :: d2).length = (d1 ++ x :: d2).length := by
    simp
  have h0 : 0 < (d1 ++ x :: d2).length := by simp
  have hflip : ((d1 ++ x :: d2).length :: cmd :: (d1 ++ (x ^^^ 2 ^ bit) :: d2)).foldl Nat.xor 0 =
      (((d1 ++ x :: d2).length :: cmd :: (d1 ++ x :: d2)).foldl Nat.xor 0) ^^^ 2 ^ bit := by
    have := foldl_xor_flip ((d1 ++ x :: d2).length :: cmd :: d1) x (2 ^ bit) d2 0
    simpa using this
  refine ⟨?_, ?_, ?_⟩
  · have hread : readFrame (36 :: 77 :: 60 :: (d1 ++ x :: d2).length :: cmd ::
        ((d1 ++ (x ^^^ 2 ^ bit) :: d2) ++
          [((d1 ++ x :: d2).length :: cmd :: (d1 ++ x :: d2)).foldl Nat.xor 0])) =
        readMSPV1Frame (60 :: (d1 ++ (x ^^^ 2 ^ bit) :: d2).length :: cmd ::
          ((d1 ++ (x ^^^ 2 ^ bit) :: d2) ++
            [((d1 ++ x :: d2).length :: cmd :: (d1 ++ x :: d2)).foldl Nat.xor 0])) := by
      rw [hmodlen]
      simp [readFrame]
    rw [hread, readMSPV1Frame_shape _ _ _ (by simp)]
    rw [if_pos]
    · rw [hmodlen, hflip]
    · rw [hmodlen, hflip]
      exact Ne.symm (xor_ne_self _ _ hm)
  · intro h
    have hx2 : x ^^^ 2 ^ bit = x := by
      have := List.append_inj_right h (by rfl)
      exact (List.cons.injEq _ _ _ _).mp this |>.1
    exact xor_ne_self x (2 ^ bit) hm hx2
  · exact mspV1Encode_shape cmd (d1 ++ x :: d2) h0 (by omega)

/-- Counterexample for C3 as stated: encoding command 1 with payload
`[1]`, flipping bit 0 of the payload byte, and decoding yields a
checksum error carrying payload `[0]` — the corrupted bytes, not the
original payload `[1]`. -/
theorem v1_bitflip_original_payload_counterexample :
    mspV1Encode 1 [1] = [36, 77, 60, 1, 1, 1, 1] ∧
    readFrame [36, 77, 60, 1, 1, 0, 1] = .error (.checksum 1 [0] 1 0) ∧
    ([0] : List Nat) ≠ [1] :=
  ⟨rfl, rfl, by decide⟩

/-- Witness for C3's amended theorem at a concrete frame. -/
theorem v1_bitflip_checksum_mismatch_witness :
    readFrame [36, 77, 60, 1, 1, 0, 1] = .error (.checksum 1 [0] 1 0) ∧
    ([0] : List Nat) ≠ [1] ∧
    mspV1Encode 1 [1] = [36, 77, 60, 1, 1, 1, 1] :=
  v1_bitflip_checksum_mismatch 1 [] 1 [] 0 (by decide) (by decide) (by decide) (by decide)

/-! ## C10: v1 encoding of payloads longer than 255 bytes -/

/-- C10 (amended): for a payload longer than 255 bytes the v1 encoder
writes a length byte of `len % 256`, which never equals the true
length; all payload bytes are still emitted when that reduced length is
non-zero, but a payload whose length is a positive multiple of 256 is
dropped entirely (the frame carries no payload bytes at all). -/
theorem v1_encode_long_payload (cmd : Nat) (data : List Nat)
    (h : 255 < data.length) :
    (mspV1Encode cmd data).getD 3 0 = data.length % 256 ∧
    data.length % 256 ≠ data.length ∧
    (0 < data.length % 256 →
      mspV1Encode cmd data =
        36 :: 77 :: 60 :: data.length % 256 :: cmd ::
          (data ++ [(data.length % 256 :: cmd :: data).foldl Nat.xor 0])) ∧
    (data.length % 256 = 0 →
      mspV1Encode cmd data =
        [36, 77, 60, 0, cmd, (0 :: cmd :: ([] : List Nat)).foldl Nat.xor 0]) := by
  have h0 : 0 < data.length := by omega
  refine ⟨?_, by omega, ?_, ?_⟩
  · simp [mspV1Encode, if_pos h0]
  · intro hpos
    simp [mspV1Encode, if_pos h0, if_pos hpos]
  · intro hz
    simp [mspV1Encode, if_pos h0, hz]

set_option maxRecDepth 8000 in
/-- Counterexample for C10 as stated: a 256-byte payload gets length
byte 0 and the encoder emits none of its payload bytes — the frame is 6
bytes long, not 262. -/
theorem v1_encode_modulo256_counterexample :
    255 < (List.replicate 256 (1 : Nat)).length ∧
    mspV1Encode 7 (List.replicate 256 1) = [36, 77, 60, 0, 7, 7] ∧
    mspV1Encode 7 (List.replicate 256 1) ≠
      [36, 77, 60, 0, 7] ++ List.replicate 256 1 ++ [7] := by
  decide

set_option maxRecDepth 8000 in
/-- Witness for C10's amended theorem at a concrete long payload. -/
theorem v1_encode_long_payload_witness :
    (mspV1Encode 3 (List.replicate 257 2)).getD 3 0 =
      (List.replicate 257 (2 : Nat)).length % 256 :=
  (v1_encode_long_payload 3 (List.replicate 257 2) (by decide)).1

/-! ## C4: direction keys and the opposite key's pending timestamp -/

/-- A stick state in which the left-arrow key has a pending press. -/
def pendingLeft : RxSticks :=
  { roll := RxMid
    pitch := RxMid
    yaw := RxMid
    throttle := RxMid
    channels := List.replicate 14 0
    lastPress := fun k => if k = .left then some 5 else none }

/-- A stick state in which the right-arrow key has a pending press. -/
def pendingRight : RxSticks :=
  { roll := RxMid
    pitch := RxMid
    yaw := RxMid
    throttle := RxMid
    channels := List.replicate 14 0
    lastPress := fun k => if k = .right then some 5 else none }

/-- C4 (code bug, evaluated at the failing input): pressing
`RXKeyRight` while `RXKeyLeft` has a pending timestamp snaps roll to
2000 and records the press, but leaves the left key's timestamp
pending, because the `RXKeyRight` arm clears `lastPress[RXKeyRight]`
(immediately overwritten by the fresh press time) instead of
`lastPress[RXKeyLeft]`.  The mirrored press of `RXKeyLeft` does clear
the right key's pending timestamp, as every other direction arm
does. -/
theorem keypress_right_leaves_left_pending :
    (pendingLeft.Keypress .right 10).roll = RxHigh ∧
    (pendingLeft.Keypress .right 10).lastPress .right = some 10 ∧
    (pendingLeft.Keypress .right 10).lastPress .left = some 5 ∧
    (pendingRight.Keypress .left 10).lastPress .right = none ∧
    (pendingRight.Keypress .left 10).roll = RxLow := by
  refine ⟨rfl, ?_, ?_, ?_, rfl⟩ <;> decide

/-! ## C7: double press of a toggle key -/

/-- Setting an entry of a list to the value it already holds changes
nothing. -/
theorem set_getD_self : ∀ (l : List Nat) (i : Nat), i < l.length →
    l.set i (l.getD i 0) = l := by
  intro l
  induction l with
  | nil => intro i h; simp at h
  | cons b t ih =>
    intro i h
    cases i with
    | zero => simp
    | succ n =>
      simp only [List.getD_cons_succ, List.set_cons_succ, List.cons.injEq,
        true_and]
      exact ih n (by simpa using h)

/-- Reading back an entry just written. -/
theorem getD_set_self : ∀ (l : List Nat) (i : Nat) (v : Nat), i < l.length →
    (l.set i v).getD i 0 = v := by
  intro l
  induction l with
  | nil => intro i v h; simp at h
  | cons b t ih =>
    intro i v h
    cases i with
    | zero => simp
    | succ n =>
      simp only [List.set_cons_succ, List.getD_cons_succ]
      exact ih n v (by simpa using h)

/-- `switchChannel` on an in-range channel flips the entry between
`RxLow` and `RxHigh`, expressed at list level. -/
theorem switchChannel_channels (r : RxSticks) (ch : Nat) (h5 : 5 ≤ ch)
    (hlt : ch - 5 < r.channels.length) :
    (r.switchChannel ch).channels =
      if r.channels.getD (ch - 5) 0 = RxLow
      then r.channels.set (ch - 5) RxHigh
      else r.channels.set (ch - 5) RxLow := by
  have hidx : (0 : Int) ≤ (ch : Int) - 5 ∧ (ch : Int) - 5 < r.channels.length := by
    constructor <;> omega
  have htn : ((ch : Int) - 5).toNat = ch - 5 := by omega
  simp only [RxSticks.switchChannel, if_pos hidx, htn]
  split <;> rfl

/-- A digit-key press only runs `switchChannel` on the key's channel as
far as the channel array is concerned. -/
theorem keypress_toggle_channels (r : RxSticks) (k : RXKey) (ch n : Nat)
    (hk : toggleChannel k = some ch) :
    (r.Keypress k n).channels = (r.switchChannel ch).channels := by
  cases k <;> simp [toggleChannel] at hk <;> subst hk <;> rfl

/-- C7 (amended): two presses of the same toggle key restore the
auxiliary channels whenever the driven channel currently holds `RxLow`
or `RxHigh`; starting from any other value (such as the 0 installed by
`FC.reset`) the pair ends at `RxHigh` instead. -/
theorem toggle_double_press (r : RxSticks) (k : RXKey) (ch n1 n2 : Nat)
    (hk : toggleChannel k = some ch)
    (hlen : r.channels.length = 14)
    (hval : r.channels.getD (ch - 5) 0 = RxLow ∨
      r.channels.getD (ch - 5) 0 = RxHigh) :
    ((r.Keypress k n1).Keypress k n2).channels = r.channels := by
  have h5 : 5 ≤ ch ∧ ch ≤ 14 := by
    cases k <;> simp [toggleChannel] at hk <;> omega
  have hi : ch - 5 < r.channels.length := by omega
  have hc1 : (r.Keypress k n1).channels = (r.switchChannel ch).channels :=
    keypress_toggle_channels r k ch n1 hk
  have hs1 := switchChannel_channels r ch h5.1 hi
  rw [keypress_toggle_channels (r.Keypress k n1) k ch n2 hk]
  have hi2 : ch - 5 < (r.Keypress k n1).channels.length := by
    rw [hc1, hs1]
    split <;> simp [List.length_set] <;> omega
  have hs2 := switchChannel_channels (r.Keypress k n1) ch h5.1 hi2
  rw [hs2, hc1, hs1]
  rcases hval with hv | hv
  · have hinner : (if r.channels.getD (ch - 5) 0 = RxLow
        then r.channels.set (ch - 5) RxHigh
        else r.channels.set (ch - 5) RxLow) = r.channels.set (ch - 5) RxHigh :=
      if_pos hv
    rw [hinner]
    rw [if_neg (by rw [getD_set_self _ _ _ hi]; decide), List.set_set, ← hv]
    exact set_getD_self r.channels (ch - 5) hi
  · have hinner : (if r.channels.getD (ch - 5) 0 = RxLow
        then r.channels.set (ch - 5) RxHigh
        else r.channels.set (ch - 5) RxLow) = r.channels.set (ch - 5) RxLow :=
      if_neg (by rw [hv]; decide)
    rw [hinner]
    rw [if_pos (getD_set_self _ _ _ hi), List.set_set, ← hv]
    exact set_getD_self r.channels (ch - 5) hi

/-- Counterexample for C7 as stated: from the state `FC.reset`
installs, whose auxiliary channels are all 0, two presses of toggle key
1 leave channel 5 at 2000, not at its original value. -/
theorem toggle_double_press_counterexample :
    ((fcResetSticks.Keypress .k1 0).Keypress .k1 1).channels.getD 0 0 = 2000 ∧
    fcResetSticks.channels.getD 0 0 = 0 ∧
    ((fcResetSticks.Keypress .k1 0).Keypress .k1 1).channels.getD 0 0 ≠
      fcResetSticks.channels.getD 0 0 := by
  decide

/-- A stick state with every auxiliary channel low. -/
def allLowSticks : RxSticks :=
  { fcResetSticks with channels := List.replicate 14 RxLow }

/-- Witness for C7's amended theorem at a concrete state and key. -/
theorem toggle_double_press_witness :
    ((allLowSticks.Keypress .k3 4).Keypress .k3 9).channels = allLowSticks.channels :=
  toggle_double_press allLowSticks .k3 7 4 9 (by decide) (by decide)
    (Or.inl (by decide))

/-! ## C6: board-info payload handling -/

/-- A fully reset session state (what `NewFC`/`reconnect` install
before any identification frame arrives). -/
def fc0 : FCState :=
  { variant := []
    versionMajor := 0
    versionMinor := 0
    versionPatch := 0
    boardID := []
    targetName := []
    features := 0
    channelMap := []
    enableDebugTrace := false
    sticks := fcResetSticks }

/-- C6: a 4-byte board-info payload (starting from a state whose target
name is empty, as after `FC.reset`) leaves the target name empty and
stores the whole payload as board id; a payload of length at least 9
whose byte 8 declares a target-name length that fits after index 8
yields exactly that substring as target name; and whenever the payload
has at least 4 bytes the board id is its first 4 bytes. -/
theorem board_info_fields (f : FCState) (payload : List Nat) :
    (payload.length = 4 → f.targetName = [] →
      (handleBoardInfo f payload).map FCState.targetName = some [] ∧
      (handleBoardInfo f payload).map FCState.boardID = some payload) ∧
    (9 ≤ payload.length → 8 + payload.getD 8 0 < payload.length →
      (handleBoardInfo f payload).map FCState.targetName =
        some ((payload.drop 9).take (payload.getD 8 0))) ∧
    (4 ≤ payload.length →
      (handleBoardInfo f payload).map FCState.boardID = some (payload.take 4)) := by
  refine ⟨?_, ?_, ?_⟩
  · intro h4 hemp
    have hn4 : ¬ payload.length < 4 := by omega
    have hn9 : ¬ 9 ≤ payload.length := by omega
    constructor
    · simp [handleBoardInfo, hn4, hn9, hemp]
    · simp only [handleBoardInfo, if_neg hn4, if_neg hn9]
      rw [← h4, List.take_length]
      simp
  · intro h9 hfit
    have hn4 : ¬ payload.length < 4 := by omega
    simp only [handleBoardInfo, if_neg hn4, if_pos h9, if_pos hfit]
    simp
  · intro h4
    have hn4 : ¬ payload.length < 4 := by omega
    simp only [handleBoardInfo, if_neg hn4]
    split
    · split
      · simp
      · simp
    · simp

/-- Witness for C6 at two concrete payloads: a bare 4-byte payload and
a 12-byte payload embedding the 2-byte target name `[65, 66]`. -/
theorem board_info_fields_witness :
    (handleBoardInfo fc0 [1, 2, 3, 4]).map FCState.targetName = some [] ∧
    (handleBoardInfo fc0 [1, 2, 3, 4]).map FCState.boardID = some [1, 2, 3, 4] ∧
    (handleBoardInfo fc0 [0, 0, 0, 0, 0, 0, 0, 0, 2, 65, 66, 9]).map
      FCState.targetName = some [65, 66] :=
  ⟨((board_info_fields fc0 [1, 2, 3, 4]).1 rfl rfl).1,
   ((board_info_fields fc0 [1, 2, 3, 4]).1 rfl rfl).2,
   (board_info_fields fc0 [0, 0, 0, 0, 0, 0, 0, 0, 2, 65, 66, 9]).2.1
     (by decide) (by decide)⟩

/-! ## C8: reconnection clears the board identity -/

/-- C8: on the success path of `FC.reconnect`, every identification
field — variant, version numbers, board id, target name, feature flags
and channel map — is cleared to its empty/zero value in the state from
which the identification handshake is then sent, whatever the previous
state held; the commands sent are exactly the handshake sequence. -/
theorem reconnect_clears_identification (f : FCState) :
    (reconnectSuccess f).1.variant = [] ∧
    (reconnectSuccess f).1.versionMajor = 0 ∧
    (reconnectSuccess f).1.versionMinor = 0 ∧
    (reconnectSuccess f).1.versionPatch = 0 ∧
    (reconnectSuccess f).1.boardID = [] ∧
    (reconnectSuccess f).1.targetName = [] ∧
    (reconnectSuccess f).1.features = 0 ∧
    (reconnectSuccess f).1.channelMap = [] ∧
    (reconnectSuccess f).2 = updateInfoCmds :=
  ⟨rfl, rfl, rfl, rfl, rfl, rfl, rfl, rfl, rfl⟩

/-! ## C9: when the debug-trace forcing is attempted -/

/-- C9 (amended): the `MspFeature` handler attempts the debug-trace
forcing exactly when the session option is set, the variant is
`"INAV"`, the version is lexicographically at least (1, 9, 0), and —
the condition the claim omits — the debug-trace bit is clear in the
feature word just read. -/
theorem feature_forcing_iff (f : FCState) (payload : List Nat) :
    debugTraceForcingAttempted f payload = true ↔
      (f.enableDebugTrace = true ∧ f.variant = inavVariant ∧
        (f.versionMajor > 1 ∨ (f.versionMajor = 1 ∧ f.versionMinor > 9) ∨
          (f.versionMajor = 1 ∧ f.versionMinor = 9 ∧ f.versionPatch ≥ 0)) ∧
        readFeaturesU32 payload f.features &&& mspFCFeatureDebugTrace = 0) := by
  have key : debugTraceForcingAttempted f payload =
      ((readFeaturesU32 payload f.features &&& mspFCFeatureDebugTrace == 0) &&
        f.shouldEnableDebugTrace) := by
    simp only [debugTraceForcingAttempted, handleFeature]
    split
    · next hcond =>
      simp only [FCState.shouldEnableDebugTrace, FCState.versionGte] at hcond
      simp only [Bool.and_eq_true, Bool.or_eq_true, beq_iff_eq,
        decide_eq_true_eq] at hcond
      obtain ⟨h1, ⟨h2, h3⟩, h4⟩ := hcond
      simp [FCState.shouldEnableDebugTrace, FCState.versionGte, h1, h2, h3]
      omega
    · next hcond =>
      simp only [Bool.not_eq_true] at hcond
      simp only [FCState.shouldEnableDebugTrace, FCState.versionGte] at hcond
      simp [FCState.shouldEnableDebugTrace, FCState.versionGte]
      intro hf he hv
      simp [he, hv, hf] at hcond
      omega
  rw [key]
  simp only [Bool.and_eq_true, beq_iff_eq, FCState.shouldEnableDebugTrace,
    FCState.versionGte, Bool.or_eq_true, decide_eq_true_eq]
  tauto

/-- A state meeting every condition the claim names: debug trace
requested, INAV, version 2.0.0. -/
def c9State : FCState :=
  { fc0 with enableDebugTrace := true, variant := inavVariant, versionMajor := 2 }

/-- Counterexample for C9 as stated: with every claimed condition
satisfied but the debug-trace bit already set in the reported feature
word (payload `[0,0,0,128]`, the little-endian encoding of bit 31), the
forcing is not attempted. -/
theorem feature_forcing_counterexample :
    c9State.enableDebugTrace = true ∧
    c9State.variant = inavVariant ∧
    c9State.versionMajor > 1 ∧
    debugTraceForcingAttempted c9State [0, 0, 0, 128] = false := by
  refine ⟨rfl, rfl, by decide, by decide⟩

/-! ## C5: payload exhaustion and the serial-config loop -/

/-- Unfolding `readSerialConfigs` on a successful record read. -/
theorem readSerialConfigs_step_ok (f : MSPFrame) (v : MSPValue) (f' : MSPFrame)
    (h : frameRead f serialConfigShape = (.ok v, f')) :
    readSerialConfigs f = (readSerialConfigs f').map (fun l => v :: l) := by
  rw [readSerialConfigs]
  split
  · next heq => rw [h] at heq; simp at heq
  · next heq => rw [h] at heq; simp at heq
  · next w fw heq =>
    rw [h] at heq
    obtain ⟨h1, h2⟩ := Prod.mk.injEq .. |>.mp heq
    obtain rfl := (Except.ok.injEq .. |>.mp h1)
    obtain rfl := h2
    rfl

/-- Unfolding `readSerialConfigs` when the record read hits `io.EOF`. -/
theorem readSerialConfigs_step_eof (f f2 : MSPFrame)
    (h : frameRead f serialConfigShape = (.error .eof, f2)) :
    readSerialConfigs f = some [] := by
  rw [readSerialConfigs]
  split
  · rfl
  · next heq => rw [h] at heq; simp at heq
  · next w fw heq => rw [h] at heq; simp at heq

/-- The serial-config loop always terminates normally (never panics)
and collects exactly one record per 7 remaining payload bytes. -/
theorem readSerialConfigs_length : ∀ (n : Nat) (f : MSPFrame),
    f.bytesRemaining = n →
    ∃ cfgs, readSerialConfigs f = some cfgs ∧ cfgs.length = n / 7 := by
  intro n
  induction n using Nat.strong_induction_on with
  | _ n ih =>
    intro f hf
    by_cases h7 : 7 ≤ f.bytesRemaining
    · obtain ⟨v, hv⟩ := (frameRead_spec serialConfigShape f).1 (by
        rw [show typeSize serialConfigShape = 7 from rfl]
        exact h7)
      have hrem := frameRead_serialConfig_ok f v _ hv
      obtain ⟨cfgs, hcfgs, hlen⟩ := ih (n - 7) (by omega) _
        (by rw [hrem.2.1, hf])
      refine ⟨v :: cfgs, ?_, ?_⟩
      · rw [readSerialConfigs_step_ok f v _ hv, hcfgs]
        rfl
      · simp only [List.length_cons, hlen]
        omega
    · have hspec := (frameRead_spec serialConfigShape f).2 (by
        rw [show typeSize serialConfigShape = 7 from rfl]
        omega)
      rcases heq : frameRead f serialConfigShape with ⟨r, f2⟩
      rw [heq] at hspec
      simp only at hspec
      subst hspec
      refine ⟨[], readSerialConfigs_step_eof f f2 heq, ?_⟩
      simp only [List.length_nil]
      omega

/-- C5: reading a typed field (8/16/32-bit integer, struct, or
fixed-length slice element) past the remaining payload always fails
with the distinct payload-exhausted signal (`io.EOF`), a read succeeds
whenever the payload suffices, and the serial-config handler's loop
reads 7-byte records and ends the list exactly at that signal — one
record per 7 remaining bytes, never reaching the panic branch. -/
theorem read_eof_and_serial_loop :
    (∀ (f : MSPFrame) (t : MSPType), f.bytesRemaining < typeSize t →
      (frameRead f t).1 = .error .eof) ∧
    (∀ (f : MSPFrame) (t : MSPType), typeSize t ≤ f.bytesRemaining →
      ∃ v, (frameRead f t).1 = .ok v) ∧
    (∀ f : MSPFrame, ∃ cfgs, readSerialConfigs f = some cfgs ∧
      cfgs.length = f.bytesRemaining / 7) := by
  refine ⟨?_, ?_, ?_⟩
  · intro f t h
    exact (frameRead_spec t f).2 h
  · intro f t h
    obtain ⟨v, hv⟩ := (frameRead_spec t f).1 h
    exact ⟨v, by rw [hv]⟩
  · intro f
    exact readSerialConfigs_length f.bytesRemaining f rfl

/-- Witness for C5: a 2-byte payload exhausts a `u32` read, suffices
for a `u16` read, and a 16-byte payload yields two serial-config
records. -/
theorem read_eof_and_serial_loop_witness :
    (frameRead ⟨54, [1, 2], 0⟩ .u32).1 = .error .eof ∧
    (∃ v, (frameRead ⟨54, [1, 2], 0⟩ .u16).1 = .ok v) ∧
    (∃ cfgs, readSerialConfigs ⟨54, List.replicate 16 0, 0⟩ = some cfgs ∧
      cfgs.length = (⟨54, List.replicate 16 0, 0⟩ : MSPFrame).bytesRemaining / 7) :=
  ⟨read_eof_and_serial_loop.1 _ _ (by decide),
   read_eof_and_serial_loop.2.1 _ _ (by decide),
   read_eof_and_serial_loop.2.2 _⟩

end MspTool
